import Mathlib

/-!
Verification development for the Napoleon's Campaign engine
(src/game_logic.py, src/llm_client.py, src/llm_cache.py, src/data.py,
src/roguelike_data.py).

The Python code is shallowly embedded: dictionaries become structures,
dynamically-typed consequence effects become the `PyVal` inductive,
Python lists become Lean lists (order-preserving, `list.remove` is
`List.erase`), Python floats become rationals, `int(...)` truncation
toward zero becomes `pyTrunc`, and functions that can raise become
`Except String`-valued functions whose error string names the Python
exception class.  Randomness and external processes (the `random`
module, the `opencode` subprocess, `json.loads`, the clock) enter as
explicit environment parameters.
-/

namespace Napoleon

/-- A Python value as it occurs in a `consequences` mapping of
`src/data.py` / generated events: an int delta, a string id, a list of
nation/territory names, or `None`. -/
inductive PyVal where
  | vint (n : Int)
  | vstr (s : String)
  | vlist (xs : List String)
  | vnone
deriving DecidableEq

/-- `True` exactly on Python list values (`isinstance(change, list)`). -/
def PyVal.isPyList : PyVal → Bool
  | .vlist _ => true
  | _ => false

/-- One selectable option of an event (`src/data.py`): its text and its
consequence mapping, kept as an ordered association list the way Python
iterates a dict (`choice.get("consequences", \x7b\x7d)` is the empty list). -/
structure Choice where
  text : String
  consequences : List (String × PyVal)
deriving DecidableEq

/-- An event dict.  `eventType` models the optional `"type"` key
(absent on the historical events of `src/data.py`, `"random"` on
generated ones); `year` and `choices` model the optional `"year"` and
`"choices"` keys. -/
structure Event where
  id : String
  eventType : Option String
  year : Option Int
  title : String
  description : String
  choices : Option (List Choice)
deriving DecidableEq

/-- The mutable player dict of `src/data.py::get_initial_game_state`.
`traits`, `generals` and `artifacts` hold whatever values the
`add_trait`/`add_general`/`add_artifact` consequences append, hence
`PyVal` elements. -/
structure Player where
  troops : Int
  gold : Int
  morale : Int
  territories : List String
  allies : List String
  enemies : List String
  traits : List PyVal
  generals : List PyVal
  artifacts : List PyVal
deriving DecidableEq

/-- The game-state dict (the fields `src/game_logic.py` reads or
writes). -/
structure GameState where
  year : Int
  season : String
  player : Player
  currentEvent : Option Event
  turnCount : Int
  gameOver : Bool
  historicalAccuracy : Int
deriving DecidableEq

/-- Python `int(x)` on a float: truncation toward zero. -/
def pyTrunc (q : ℚ) : Int := if q < 0 then ⌈q⌉ else ⌊q⌋

/-- Python list indexing `xs[i]` with negative-index wraparound;
`none` models an `IndexError`. -/
def pyIndex {α : Type} (xs : List α) (i : Int) : Option α :=
  let j : Int := if i < 0 then i + xs.length else i
  if 0 ≤ j then xs[j.toNat]? else none

/-- Helper for the Python string methods: strip a literal prefix off a
character list, returning the remainder on success. -/
def dropPrefixChars : List Char → List Char → Option (List Char)
  | [], s => some s
  | _ :: _, [] => none
  | p :: ps, c :: cs => if c = p then dropPrefixChars ps cs else none

/-- Recursion core of `pySplit`, fuelled by the input length so the
kernel can evaluate it. -/
def pySplitAux (sep : List Char) :
    Nat → List Char → List Char → List (List Char)
  | 0, acc, rest => [acc.reverse ++ rest]
  | _ + 1, acc, [] => [acc.reverse]
  | fuel + 1, acc, c :: cs =>
    match dropPrefixChars sep (c :: cs) with
    | some rest => acc.reverse :: pySplitAux sep fuel [] rest
    | none => pySplitAux sep fuel (c :: acc) cs

/-- Python `s.split(sep)` for a nonempty separator: leftmost,
non-overlapping matches; neighbouring separators yield empty pieces. -/
def pySplit (s sep : String) : List String :=
  (pySplitAux sep.data (s.data.length + 1) [] s.data).map String.mk

/-- Python `s.strip()`: drop leading and trailing whitespace. -/
def pyStrip (s : String) : String :=
  String.mk
    (((s.data.dropWhile Char.isWhitespace).reverse.dropWhile
      Char.isWhitespace).reverse)

/-- Python `s.startswith(prefix)`. -/
def pyStartswith (s pre : String) : Bool :=
  (dropPrefixChars pre.data s.data).isSome


/-! ## Content store (src/roguelike_data.py)

The `TRAITS` / `GENERALS` / `ARTIFACTS` tables, restricted to the
fields `src/game_logic.py` reads (`effect_type`, `value`,
`strength_bonus`, `casualty_penalty`, `status`, `death_chance`,
`name`).  A dictionary miss (`TRAITS.get(id, \x7b\x7d)`) is the `empty`
effect / `none`. -/

/-- The `effect_type`/`value` payload of a trait or artifact entry. -/
inductive TraitEffect where
  | battle_bonus (value : ℚ)
  | maintenance_reduction (value : ℚ)
  | morale_recovery (value : ℚ)
  | diplomacy_bonus (value : ℚ)
  | battle_modifier (strength_bonus casualty_penalty : ℚ)
  | income_bonus (value : Int)
  | morale_regen (value : Int)
  | empty
deriving DecidableEq

/-- `src/data.py::get_trait` over the `TRAITS` table. -/
def get_trait : PyVal → TraitEffect
  | .vstr "artillery_expert" => .battle_bonus (20/100)
  | .vstr "logistics_master" => .maintenance_reduction (30/100)
  | .vstr "charismatic_leader" => .morale_recovery (50/100)
  | .vstr "diplomat" => .diplomacy_bonus (20/100)
  | .vstr "reckless" => .battle_modifier (10/100) (10/100)
  | .vstr "wealthy_patron" => .income_bonus 500
  | _ => .empty

/-- A `GENERALS` table entry. -/
structure GeneralData where
  name : String
  effect_type : String
  value : ℚ
  death_chance : ℚ
  status : String
deriving DecidableEq

/-- `src/data.py::get_general` over the `GENERALS` table (`none` is the
empty-dict miss, on which every `.get(...)` check fails). -/
def get_general : PyVal → Option GeneralData
  | .vstr "ney" => some ⟨"Michel Ney", "battle_bonus", 25/100, 15/100, "active"⟩
  | .vstr "davout" => some ⟨"Louis-Nicolas Davout", "defense_bonus", 30/100, 5/100, "active"⟩
  | .vstr "murat" => some ⟨"Joachim Murat", "cavalry_bonus", 20/100, 10/100, "active"⟩
  | .vstr "berthier" => some ⟨"Louis-Alexandre Berthier", "logistics_bonus", 25/100, 1/100, "active"⟩
  | .vstr "lannes" => some ⟨"Jean Lannes", "battle_bonus", 20/100, 10/100, "active"⟩
  | _ => none

/-- `src/data.py::get_artifact` over the `ARTIFACTS` table. -/
def get_artifact : PyVal → TraitEffect
  | .vstr "rosetta_stone" => .diplomacy_bonus (10/100)
  | .vstr "imperial_eagle" => .morale_regen 1
  | .vstr "code_civil" => .income_bonus 200
  | .vstr "austrian_cannon" => .battle_bonus (5/100)
  | _ => .empty

/-! ## State mutator (src/game_logic.py::apply_choice_consequences) -/

/-- Body of the `allies` branch for one listed nation: union-add to
`allies`, then remove from `enemies` if present (lines 76-81). -/
def applyAlly (p : Player) (ally : String) : Player :=
  let p1 := if ally ∈ p.allies then p else { p with allies := p.allies ++ [ally] }
  if ally ∈ p1.enemies then { p1 with enemies := p1.enemies.erase ally } else p1

/-- Body of the `enemies` branch for one listed nation (lines 84-89). -/
def applyEnemy (p : Player) (enemy : String) : Player :=
  let p1 := if enemy ∈ p.enemies then p else { p with enemies := p.enemies ++ [enemy] }
  if enemy ∈ p1.allies then { p1 with allies := p1.allies.erase enemy } else p1

/-- Body of the `territories` branch for one listed territory
(lines 71-73). -/
def applyTerritory (p : Player) (t : String) : Player :=
  if t ∈ p.territories then p else { p with territories := p.territories ++ [t] }

/-- One iteration of the resource loop of `apply_choice_consequences`
(lines 62-104).  An `error` models the `TypeError` Python raises when a
signed delta key carries a non-int value. -/
def apply_resource (p : Player) (resource : String) (change : PyVal) :
    Except String Player :=
  if resource = "troops" then
    match change with
    | .vint n => .ok { p with troops := max 0 (p.troops + n) }
    | _ => .error "TypeError"
  else if resource = "gold" then
    match change with
    | .vint n => .ok { p with gold := max (-10000) (p.gold + n) }
    | _ => .error "TypeError"
  else if resource = "morale" then
    match change with
    | .vint n => .ok { p with morale := max 0 (min 100 (p.morale + n)) }
    | _ => .error "TypeError"
  else if resource = "territories" then
    match change with
    | .vlist xs => .ok (xs.foldl applyTerritory p)
    | _ => .ok p
  else if resource = "allies" then
    match change with
    | .vlist xs => .ok (xs.foldl applyAlly p)
    | _ => .ok p
  else if resource = "enemies" then
    match change with
    | .vlist xs => .ok (xs.foldl applyEnemy p)
    | _ => .ok p
  else if resource = "next_event" then
    .ok p
  else if resource = "add_trait" then
    .ok (if change ∈ p.traits then p else { p with traits := p.traits ++ [change] })
  else if resource = "add_general" then
    .ok (if change ∈ p.generals then p else { p with generals := p.generals ++ [change] })
  else if resource = "add_artifact" then
    .ok (if change ∈ p.artifacts then p else { p with artifacts := p.artifacts ++ [change] })
  else
    .ok p

/-- The resource loop, folded in dict-iteration order. -/
def apply_resources (p : Player) : List (String × PyVal) → Except String Player
  | [] => .ok p
  | (r, c) :: rest =>
    match apply_resource p r c with
    | .ok p1 => apply_resources p1 rest
    | .error e => .error e

/-- `src/game_logic.py::apply_choice_consequences` (lines 45-106).
Returns the state unchanged when there is no current event, when the
event has no `choices` key, or when `choice_index ≥ len(choices)`;
negative indices hit Python's wraparound list indexing, and an index
below `-len(choices)` raises `IndexError`. -/
def apply_choice_consequences (s : GameState) (choice_index : Int) :
    Except String GameState :=
  match s.currentEvent with
  | none => .ok s
  | some ev =>
    match ev.choices with
    | none => .ok s
    | some choices =>
      if (choices.length : Int) ≤ choice_index then .ok s
      else
        match pyIndex choices choice_index with
        | none => .error "IndexError"
        | some choice =>
          match apply_resources s.player choice.consequences with
          | .ok p1 => .ok { s with player := p1 }
          | .error e => .error e

/-! ## Seasonal effects and income (src/game_logic.py lines 246-316) -/

/-- The fixed season cycle (line 272). -/
def seasons : List String := ["spring", "summer", "autumn", "winter"]

/-- `src/game_logic.py::apply_seasonal_effects` (lines 246-276).  The
`error` models the `ValueError` of `seasons.index(season)` on a season
string outside the cycle. -/
def apply_seasonal_effects (s : GameState) : Except String GameState :=
  let p := s.player
  let p1 :=
    if s.season = "winter" then
      { p with morale := max 0 (p.morale - 5),
               gold := max (-10000) (p.gold - (p.territories.length : Int) * 200) }
    else if s.season = "spring" then
      { p with morale := min 100 (p.morale + 2) }
    else if s.season = "autumn" then
      { p with gold := p.gold + (p.territories.length : Int) * 100 }
    else p
  match seasons.indexOf? s.season with
  | some i => .ok { s with player := p1, season := seasons.getD ((i + 1) % 4) "" }
  | none => .error "ValueError"

/-- The trait loop of `generate_income` (lines 295-300), threading
`(gold, maintenance_cost)`. -/
def income_trait_step (acc : Int × Int) (t : PyVal) : Int × Int :=
  match get_trait t with
  | .maintenance_reduction v => (acc.1, pyTrunc ((acc.2 : ℚ) * (1 - v)))
  | .income_bonus n => (acc.1 + n, acc.2)
  | _ => acc

/-- The general loop of `generate_income` (lines 303-306). -/
def income_general_step (m : Int) (g : PyVal) : Int :=
  match get_general g with
  | some gd =>
    if gd.status = "active" ∧ gd.effect_type = "logistics_bonus" then
      pyTrunc ((m : ℚ) * (1 - gd.value))
    else m
  | none => m

/-- The artifact loop of `generate_income` (lines 309-312). -/
def income_artifact_step (gold : Int) (a : PyVal) : Int :=
  match get_artifact a with
  | .income_bonus n => gold + n
  | _ => gold

/-- `src/game_logic.py::generate_income` (lines 279-316).  Note the
final `gold -= maintenance_cost` is not clamped. -/
def generate_income (s : GameState) : GameState :=
  let p := s.player
  let gold1 := p.gold + (p.territories.length : Int) * 500
  let gold2 := gold1 + (p.allies.length : Int) * 200
  let m0 : Int := p.troops.fdiv 1000 * 100
  let gm := p.traits.foldl income_trait_step (gold2, m0)
  let m1 := p.generals.foldl income_general_step gm.2
  let gold3 := p.artifacts.foldl income_artifact_step gm.1
  { s with player := { p with gold := gold3 - m1 } }

/-! ## Event sequencer (src/game_logic.py lines 109-243) -/

/-- The hardcoded campaign order of `get_next_event_id`
(lines 198-234). -/
def event_sequence : List String := [
  "italian_campaign_1796",
  "austrian_counterattack_1796",
  "austrian_invasion_1796",
  "italian_alliance_1796",
  "castiglione_victory_1796",
  "arcole_bridge_1796",
  "mantua_siege_1796",
  "peace_negotiations_1797",
  "continued_war_1797",
  "egypt_campaign_1798",
  "battle_of_the_nile_1798",
  "siege_of_acre_1799",
  "return_to_france_1799",
  "coup_of_18_brumaire_1799",
  "consul_reforms_1800",
  "marengo_campaign_1800",
  "luneville_peace_1801",
  "concordat_with_church_1801",
  "amien_peace_1802",
  "crown_emperor_1804",
  "austerlitz_campaign_1805",
  "pressburg_peace_1805",
  "jena_auerstadt_1806",
  "berlin_decree_1806",
  "friedland_peace_1807",
  "peninsular_war_1808",
  "wagram_campaign_1809",
  "schonbrunn_peace_1809",
  "russian_campaign_1812",
  "retreat_from_moscow_1812",
  "leipzig_campaign_1813",
  "abdication_1814",
  "hundred_days_1815",
  "waterloo_1815",
  "final_exile_1815"]

/-- `src/game_logic.py::get_next_event_id` (lines 195-243): successor
in the fixed sequence, `none` past the end or for an unknown id. -/
def get_next_event_id (current_event_id : String) : Option String :=
  match event_sequence.indexOf? current_event_id with
  | some i => event_sequence[i + 1]?
  | none => none

/-- Line 148: overwrite-or-insert `consequences["next_event"]`. -/
def set_next_event (m : List (String × PyVal)) (nid : String) :
    List (String × PyVal) :=
  if m.any (fun kv => kv.1 = "next_event") then
    m.map (fun kv => if kv.1 = "next_event" then ("next_event", PyVal.vstr nid) else kv)
  else m ++ [("next_event", PyVal.vstr nid)]

/-- Lines 145-148: force every choice of the (deep-copied) side event
to rejoin at `nid`. -/
def rewire_side_event (ev : Event) (nid : String) : Event :=
  { ev with choices := ev.choices.map (fun cs =>
      cs.map (fun c => { c with consequences := set_next_event c.consequences nid })) }

/-- Environment of `advance_to_next_event`: the content-store lookup
(`src/data.py::get_event`, where `none` models the falsy empty-dict
miss), the `random.random()` draw, and the outcome of
`get_random_event` (`none` models both a generation failure that left
no fallback and a falsy result). -/
structure SequencerEnv where
  getEvent : String → Option Event
  draw : ℚ
  randomEvent : Option Event

/-- `src/game_logic.py::advance_to_next_event` (lines 109-165).  The
`error` models the `KeyError` of `event_copy["choices"]` when a spliced
side event lacks a `choices` key. -/
def advance_to_next_event (env : SequencerEnv) (s : GameState) :
    Except String GameState :=
  match s.currentEvent with
  | none => .ok { s with currentEvent := env.getEvent "italian_campaign_1796" }
  | some cur =>
    let nextId : Option String :=
      match cur.choices with
      | some cs => if 0 < cs.length then get_next_event_id cur.id else none
      | none => none
    match nextId with
    | some nid =>
      if cur.eventType ≠ some "random" ∧ env.draw < 3/10 then
        match env.randomEvent with
        | some re =>
          match re.choices with
          | some _ => .ok { s with currentEvent := some (rewire_side_event re nid) }
          | none => .error "KeyError"
        | none => advance_main s (env.getEvent nid)
      else advance_main s (env.getEvent nid)
    | none => .ok { s with currentEvent := none }
where
  /-- Lines 153-163: step onto the looked-up main-line event, updating
  the year when the event carries one. -/
  advance_main (s : GameState) (nextEvent : Option Event) : Except String GameState :=
    match nextEvent with
    | some ne => .ok { s with currentEvent := some ne, year := ne.year.getD s.year }
    | none => .ok { s with currentEvent := none }

/-- `src/game_logic.py::process_turn` (lines 21-42). -/
def process_turn (env : SequencerEnv) (s : GameState) (choice : Option Int) :
    Except String GameState := do
  let s1 ←
    match choice with
    | none => advance_to_next_event env s
    | some c => do
      let sa ← apply_choice_consequences s c
      advance_to_next_event env sa
  let s2 := { s1 with turnCount := s1.turnCount + 1 }
  let s3 ← apply_seasonal_effects s2
  return generate_income s3

/-! ## Resolution engine (src/game_logic.py lines 383-502) -/

/-- The trait loop of `resolve_battle` (lines 402-408), threading
`(attacker_modifier, casualty_modifier)`. -/
def battle_trait_step (acc : ℚ × ℚ) (t : PyVal) : ℚ × ℚ :=
  match get_trait t with
  | .battle_bonus v => (acc.1 + v, acc.2)
  | .battle_modifier sb cp => (acc.1 + sb, acc.2 + cp)
  | _ => acc

/-- The general loop of `resolve_battle` (lines 411-421), threading the
attacker modifier and collecting the active generals in order. -/
def battle_general_step (acc : ℚ × List GeneralData) (g : PyVal) :
    ℚ × List GeneralData :=
  match get_general g with
  | some gd =>
    if gd.status = "active" then
      if gd.effect_type = "battle_bonus" ∨ gd.effect_type = "cavalry_bonus" then
        (acc.1 + gd.value, acc.2 ++ [gd])
      else if gd.effect_type = "defense_bonus" then
        (acc.1 + gd.value * (1/2), acc.2 ++ [gd])
      else (acc.1, acc.2 ++ [gd])
    else acc
  | none => acc

/-- The result dict of `resolve_battle`. -/
structure BattleResult where
  result : String
  casualties : Int
  attacker_strength : ℚ
  defender_strength : ℚ
  general_updates : List String
deriving DecidableEq

/-- The random draws `resolve_battle` consumes: the two
`uniform(-0.2, 0.2)` strength noises, the branch casualty-rate draw
(`uniform(0.05, 0.15)` on victory, `uniform(0.10, 0.25)` on defeat),
and the per-active-general death rolls in roster order. -/
structure BattleDraws where
  attackerNoise : ℚ
  defenderNoise : ℚ
  victoryCasualty : ℚ
  defeatCasualty : ℚ
  deathRoll : Nat → ℚ

/-- `src/game_logic.py::resolve_battle` (lines 383-465).  The Python
defaults (`attacker_morale=100`, `defender_morale=100`,
`terrain_bonus=0`, empty trait/general lists) are passed explicitly
here. -/
def resolve_battle (attacker_troops defender_troops : Int)
    (attacker_morale defender_morale : Int)
    (terrain_bonus : Int) (player_traits : List PyVal)
    (player_generals : List PyVal) (draws : BattleDraws) : BattleResult :=
  let mods := player_traits.foldl battle_trait_step (1, 1)
  let genAcc := player_generals.foldl battle_general_step (mods.1, [])
  let attacker_modifier := genAcc.1
  let casualty_modifier := mods.2
  let active_generals := genAcc.2
  let attacker_strength :=
    (attacker_troops : ℚ) * ((attacker_morale : ℚ) / 100) *
      (1 + draws.attackerNoise) * attacker_modifier
  let defender_strength :=
    (defender_troops : ℚ) * ((defender_morale : ℚ) / 100) *
      (1 + draws.defenderNoise) * (1 + (terrain_bonus : ℚ))
  let victory := defender_strength < attacker_strength
  let casualty_rate :=
    (if victory then draws.victoryCasualty else draws.defeatCasualty) * casualty_modifier
  let casualties := pyTrunc ((attacker_troops : ℚ) * casualty_rate)
  let general_updates :=
    (active_generals.enum.filter
      (fun gi => draws.deathRoll gi.1 < gi.2.death_chance)).map
      (fun gi => gi.2.name ++ " has fallen in battle!")
  { result := if victory then "victory" else "defeat",
    casualties := casualties,
    attacker_strength := attacker_strength,
    defender_strength := defender_strength,
    general_updates := general_updates }

/-- The `nation_modifiers` table of `calculate_diplomacy_success`
(lines 484-491), with the `.get(_, 0)` default. -/
def nation_modifier : String → ℚ
  | "Austria" => -(20/100)
  | "Britain" => -(30/100)
  | "Russia" => -(10/100)
  | "Prussia" => -(10/100)
  | "Spain" => 10/100
  | "Kingdom of Sardinia" => 20/100
  | _ => 0

/-- `src/game_logic.py::calculate_diplomacy_success` (lines 468-502). -/
def calculate_diplomacy_success (target_nation : String)
    (current_gold current_morale : Int) (allies_count : Nat) : ℚ :=
  let base_chance : ℚ := 1/2
  let gold_modifier := min (3/10) ((current_gold : ℚ) / 50000)
  let morale_modifier := ((current_morale : ℚ) - 50) / 100
  let ally_modifier := (allies_count : ℚ) * (5/100)
  let total_chance :=
    base_chance + gold_modifier + morale_modifier + ally_modifier +
      nation_modifier target_nation
  max (1/10) (min (9/10) total_chance)

/-! ## Content generation gateway (src/llm_cache.py, src/llm_client.py)

`json.loads` / `json.dumps`, the `opencode` subprocess, MD5 and the
wall clock are external to the repository; they enter the embedding as
parameters (`loads`, `run`, `now`), and the MD5 cache key is modelled
by its collision-free preimage `model ++ ":" ++ prompt`
(`src/llm_cache.py::_get_cache_key` line 37). -/

/-- A parsed JSON value (the image of `json.loads`). -/
inductive Json where
  | obj (fields : List (String × Json))
  | arr (elems : List Json)
  | str (s : String)
  | num (n : Int)
  | bool (b : Bool)
  | null

/-- Python truthiness of a parsed JSON value (`if cached:` on the value
returned by `LLMCache.get`). -/
def Json.truthy : Json → Bool
  | .obj fields => !fields.isEmpty
  | .arr elems => !elems.isEmpty
  | .str s => !(s = "")
  | .num n => !(n = 0)
  | .bool b => b
  | .null => false

/-- `isinstance(parsed, dict)`. -/
def Json.isDict : Json → Bool
  | .obj _ => true
  | _ => false

/-- Dict lookup on a parsed JSON object. -/
def Json.getKey (j : Json) (k : String) : Option Json :=
  match j with
  | .obj fields => (fields.find? (fun kv => kv.1 = k)).map (fun kv => kv.2)
  | _ => none

/-- Dict assignment `d[k] = v` on a parsed JSON object: overwrite in
place or append. -/
def Json.setKey (j : Json) (k : String) (v : Json) : Json :=
  match j with
  | .obj fields =>
    if fields.any (fun kv => kv.1 = k) then
      .obj (fields.map (fun kv => if kv.1 = k then (k, v) else kv))
    else .obj (fields ++ [(k, v)])
  | other => other

/-- `src/llm_cache.py::_get_cache_key` (line 37): the hashed content
`f"\x7bmodel\x7d:\x7bprompt\x7d"`, with the MD5 step modelled as the
identity on this preimage. -/
def get_cache_key (prompt model : String) : String := model ++ ":" ++ prompt

/-- One on-disk cache entry (`src/llm_cache.py::set` lines 96-101),
with the ISO timestamp modelled as hours on an abstract clock. -/
structure CacheEntry where
  timestamp : Int
  response : Json

/-- The cache directory: one entry per cache key. -/
def CacheState := List (String × CacheEntry)

/-- `src/llm_cache.py::LLMCache.get` (lines 51-83): `none` on a missing
key or an expired entry; an expired entry is deleted on access.
Returns the possibly-shrunk cache directory alongside the result. -/
def cache_get (cache : CacheState) (now : Int) (prompt model : String)
    (max_age_hours : Int) : Option Json × CacheState :=
  let key := get_cache_key prompt model
  match cache.find? (fun kv => kv.1 = key) with
  | none => (none, cache)
  | some kv =>
    if max_age_hours < now - kv.2.timestamp then
      (none, cache.filter (fun e => !(e.1 = key)))
    else (some kv.2.response, cache)

/-- `src/llm_cache.py::LLMCache.set` (lines 85-104): write the entry at
the current time, overwriting any file under the same key. -/
def cache_set (cache : CacheState) (now : Int) (prompt model : String)
    (response : Json) : CacheState :=
  let key := get_cache_key prompt model
  (key, CacheEntry.mk now response) ::
    cache.filter (fun e => !(e.1 = key))

/-- Outcome of one `subprocess.run(["opencode", "run", prompt,
"--model", model], ...)` invocation. -/
inductive RunOutcome where
  | finished (returncode : Int) (stdout : String) (stderr : String)
  | timedOut
  | notFound

/-- The externals `_call_opencode` interacts with: the subprocess (keyed
by prompt and model), the stdlib JSON parser, and the clock. -/
structure GatewayEnv where
  run : String → String → RunOutcome
  loads : String → Except String Json
  now : Int

/-- What `_call_opencode` evaluates to: the re-serialized cache hit
(`json.dumps(cached)`), a fresh model response string, or a raised
exception. -/
inductive CallResult where
  | fromCache (j : Json)
  | fromModel (response : String)
  | raised (msg : String)

/-- Python `response.startswith('\x7b')`. -/
def startsWithBrace (s : String) : Bool := pyStartswith s "\x7b"

/-- The model loop of `_call_opencode` (lines 53-87), returning the
result, the updated cache directory, and the number of subprocess
invocations made. -/
def try_models (env : GatewayEnv) (use_cache : Bool) (prompt : String)
    (cache : CacheState) :
    List String → Option String → CallResult × CacheState × Nat
  | [], lastError =>
    (.raised ("All models failed. Last error: " ++ lastError.getD "None"), cache, 0)
  | model :: rest, _lastError =>
    match env.run prompt model with
    | .finished returncode stdout stderr =>
      if returncode ≠ 0 then
        let r := try_models env use_cache prompt cache rest
          (some ("Model " ++ model ++ " error: " ++ stderr))
        (r.1, r.2.1, r.2.2 + 1)
      else
        let response := pyStrip stdout
        let cache1 :=
          if use_cache ∧ response ≠ "" then
            if startsWithBrace response then
              match env.loads response with
              | .ok parsed =>
                if parsed.isDict then cache_set cache env.now prompt model parsed
                else cache_set cache env.now prompt model
                  (.obj [("text", .str response)])
              | .error _ => cache
            else cache_set cache env.now prompt model (.obj [("text", .str response)])
          else cache
        (.fromModel response, cache1, 1)
    | .timedOut =>
      let r := try_models env use_cache prompt cache rest
        (some ("Model " ++ model ++ " timed out"))
      (r.1, r.2.1, r.2.2 + 1)
    | .notFound => (.raised "opencode not found. Please install it.", cache, 1)

/-- `src/llm_client.py::LLMClient._call_opencode` (lines 33-87) for a
client with primary `model` and `fallback_models`. -/
def call_opencode (env : GatewayEnv) (cache : CacheState)
    (prompt model : String) (fallback_models : List String)
    (use_cache : Bool) : CallResult × CacheState × Nat :=
  if use_cache then
    match cache_get cache env.now prompt model 168 with
    | (some cached, cache1) =>
      if cached.truthy then (.fromCache cached, cache1, 0)
      else try_models env use_cache prompt cache1 (model :: fallback_models) none
    | (none, cache1) =>
      try_models env use_cache prompt cache1 (model :: fallback_models) none
  else try_models env use_cache prompt cache (model :: fallback_models) none

/-- Python `needle in haystack` on strings, for the nonempty needles
used by `generate_event`. -/
def pyInStr (needle haystack : String) : Bool :=
  1 < (pySplit haystack needle).length

/-- The markdown-fence stripping of `generate_event` (lines 169-173). -/
def strip_code_fences (response : String) : String :=
  if pyInStr "```json" response then
    pyStrip ((pySplit ((pySplit response "```json").getD 1 "") "```").headD "")
  else if pyInStr "```" response then
    pyStrip ((pySplit ((pySplit response "```").getD 1 "") "```").headD "")
  else response

/-- The safe fallback event of `generate_event` (lines 186-197) as a
JSON object, given the decode error text and the trigger type. -/
def fallback_event (errText : String) (trigger_type : Option String) : Json :=
  .obj [
    ("id", .str "error"),
    ("title", .str "Unexpected Development"),
    ("description", .str ("Intelligence reports are unclear. (LLM Error: " ++ errText ++ ")")),
    ("type", .str (trigger_type.getD "random")),
    ("choices", .arr [Json.obj [("text", .str "Proceed cautiously"), ("consequences", .obj [])]])]

/-- The response-processing tail of
`src/llm_client.py::LLMClient.generate_event` (lines 165-197): strip
fences, `json.loads`, attach trigger metadata on success, substitute
the fallback event on `JSONDecodeError`.  A parsed non-dict value makes
the metadata item-assignment raise `TypeError`, modelled as `.error`. -/
def generate_event_from_response (loads : String → Except String Json)
    (trigger_id : Option String) (trigger_type : Option String)
    (trigger_year : Option Int) (response : String) : Except String Json :=
  let stripped := strip_code_fences response
  match loads stripped with
  | .error e => .ok (fallback_event e trigger_type)
  | .ok event_data =>
    if event_data.isDict then
      let e1 := event_data.setKey "id" (.str (trigger_id.getD "llm_generated"))
      let e2 := e1.setKey "type" (.str (trigger_type.getD "historical"))
      let e3 :=
        match trigger_year with
        | some y => e2.setKey "year" (.num y)
        | none => e2
      .ok e3
    else .error "TypeError"

/-! ## Content-store fixtures (src/data.py, src/roguelike_data.py)

The entries of the event tables that the concrete evaluations below
touch, transcribed from the source. -/

/-- `src/data.py` events table, entry `"italian_campaign_1796"`. -/
def italian_campaign_1796 : Event :=
  { id := "italian_campaign_1796",
    eventType := none,
    year := some 1796,
    title := "The Italian Campaign",
    description := "The French Directory has appointed you to command the Army of Italy.\nThe Austrian Empire threatens French borders. You have 50,000 troops under your command.\nThe Italian peninsula offers rich resources and strategic advantages.\n\nWill you launch an aggressive offensive or proceed cautiously?",
    choices := some [
      { text := "Launch aggressive offensive against Austrian forces",
        consequences := [
          ("troops", .vint (-8000)),
          ("gold", .vint 5000),
          ("morale", .vint 15),
          ("territories", .vlist ["Northern Italy"]),
          ("enemies", .vlist []),
          ("next_event", .vstr "austrian_counterattack_1796")] },
      { text := "Build fortifications and wait for reinforcements",
        consequences := [
          ("troops", .vint 5000),
          ("gold", .vint (-2000)),
          ("morale", .vint (-5)),
          ("territories", .vlist []),
          ("enemies", .vlist []),
          ("next_event", .vstr "austrian_invasion_1796")] },
      { text := "Negotiate with local Italian states for alliances",
        consequences := [
          ("troops", .vint 2000),
          ("gold", .vint 1000),
          ("morale", .vint 5),
          ("territories", .vlist []),
          ("allies", .vlist ["Kingdom of Sardinia"]),
          ("next_event", .vstr "italian_alliance_1796")] }] }

/-- `src/data.py` events table, entry `"austrian_counterattack_1796"`. -/
def austrian_counterattack_1796 : Event :=
  { id := "austrian_counterattack_1796",
    eventType := none,
    year := some 1796,
    title := "Austrian Counterattack",
    description := "Your victory at Lodi has opened the path to Milan, but the Austrians\nare massing forces for a counterattack. Field Marshal Beaulieu commands\n40,000 Austrian troops against your 42,000 French soldiers.\n\nThe terrain favors defense, but you could outflank their positions.",
    choices := some [
      { text := "Hold defensive positions at the Adda River",
        consequences := [
          ("troops", .vint (-3000)),
          ("gold", .vint 0),
          ("morale", .vint 10),
          ("territories", .vlist []),
          ("next_event", .vstr "castiglione_victory_1796")] },
      { text := "Launch flanking maneuver around their right",
        consequences := [
          ("troops", .vint (-5000)),
          ("gold", .vint 3000),
          ("morale", .vint 20),
          ("territories", .vlist ["Lombardy"]),
          ("next_event", .vstr "arcole_bridge_1796")] }] }

/-- `src/roguelike_data.py::RANDOM_EVENTS`, entry `"supply_shortage"`
(the static side-event `get_random_event` falls back to). -/
def supply_shortage : Event :=
  { id := "supply_shortage",
    eventType := some "random",
    year := none,
    title := "Supply Shortage",
    description := "Bad weather and partisan attacks have disrupted your supply lines. Your troops are hungry and ammunition is low.",
    choices := some [
      { text := "Purchase supplies at high cost",
        consequences := [("gold", .vint (-2000)), ("morale", .vint 5)] },
      { text := "Forage from the local countryside",
        consequences := [("morale", .vint (-10)), ("gold", .vint 500)] }] }

/-- The restriction of `src/data.py::get_event` to the entries the
concrete evaluations below look up (missing ids are the falsy
empty-dict miss, `none`). -/
def sample_get_event : String → Option Event
  | "italian_campaign_1796" => some italian_campaign_1796
  | "austrian_counterattack_1796" => some austrian_counterattack_1796
  | _ => none

/-- `src/data.py::get_initial_game_state`, restricted to the embedded
fields. -/
def initial_game_state : GameState :=
  { year := 1796,
    season := "spring",
    player := {
      troops := 50000,
      gold := 10000,
      morale := 100,
      territories := ["France"],
      allies := [],
      enemies := ["Austria", "Britain", "Russia", "Prussia"],
      traits := [],
      generals := [],
      artifacts := [] },
    currentEvent := some italian_campaign_1796,
    turnCount := 0,
    gameOver := false,
    historicalAccuracy := 100 }

/-! ## Scenario fixtures for the concrete evaluations -/

/-- Sequencer environment whose `random.random()` draw of 0.5 declines
the 30% side-event diversion. -/
def no_diversion_env : SequencerEnv :=
  ⟨sample_get_event, 1/2, some supply_shortage⟩

/-- Sequencer environment whose draw of 0.2 takes the diversion, with
`get_random_event` yielding the static `supply_shortage` side event. -/
def diversion_env : SequencerEnv :=
  ⟨sample_get_event, 1/5, some supply_shortage⟩

/-- A state at the debt ceiling with a troop-maintenance bill and no
income source. -/
def indebted_state : GameState :=
  { initial_game_state with player := { initial_game_state.player with
      troops := 10000, gold := -10000, territories := [], allies := [],
      enemies := [] } }

/-- The documented behaviour of the stdlib `json.loads` on the concrete
strings the evaluations below feed it (used to instantiate the `loads`
parameter of the gateway model). -/
def loads_stub : String → Except String Json
  | "\x7b\x7d" => .ok (.obj [])
  | "\x7b\"note\": 1\x7d" => .ok (.obj [("note", .num 1)])
  | "[1, 2]" => .ok (.arr [.num 1, .num 2])
  | _ => .error "Expecting value: line 1 column 1 (char 0)"

/-- Gateway environment whose external tool always answers the literal
two-character string `\x7b\x7d` (an empty JSON object). -/
def empty_obj_env : GatewayEnv :=
  ⟨fun _ _ => .finished 0 "\x7b\x7d" "", loads_stub, 0⟩

/-- Gateway environment whose external tool always answers the plain
non-JSON text `hello`. -/
def plain_text_env : GatewayEnv :=
  ⟨fun _ _ => .finished 0 "hello" "", loads_stub, 0⟩

/-- The season step of `apply_seasonal_effects` (lines 271-274):
successor in the four-season cycle, `none` on a season string outside
it. -/
def next_season (season : String) : Option String :=
  (seasons.indexOf? season).map (fun i => seasons.getD ((i + 1) % 4) "")

/-- The set discipline of the spec data model on the `allies` and
`enemies` collections: duplicate-free and mutually exclusive. -/
def AllyEnemyInv (p : Player) : Prop :=
  p.allies.Nodup ∧ p.enemies.Nodup ∧ ∀ x, x ∈ p.allies → x ∉ p.enemies

/-- The PlayerState bounds of the spec data model: `troops ≥ 0`,
`gold ≥ -10000`, `morale ∈ [0,100]`, with `allies`/`enemies` behaving
as disjoint sets. -/
def PlayerInv (p : Player) : Prop :=
  0 ≤ p.troops ∧ -10000 ≤ p.gold ∧ 0 ≤ p.morale ∧ p.morale ≤ 100 ∧
  AllyEnemyInv p

/-- An event one of whose choices carries non-list values under the
`territories`, `allies` and `enemies` keys (exercises the
silent-ignore path of the consequence loop). -/
def bad_value_event : Event :=
  { id := "bad_value",
    eventType := some "random",
    year := none,
    title := "Bad Values",
    description := "Non-list collection consequences.",
    choices := some [
      { text := "go",
        consequences := [
          ("territories", .vstr "Lombardy"),
          ("allies", .vint 3),
          ("enemies", .vnone),
          ("gold", .vint 100)] }] }

/-- The initial state with `bad_value_event` as current event. -/
def bad_value_state : GameState :=
  { initial_game_state with currentEvent := some bad_value_event }

/-- The state `apply_choice_consequences` produces from
`bad_value_state` on choice 0. -/
def bad_value_result : GameState :=
  (apply_choice_consequences bad_value_state 0).toOption.getD bad_value_state

/-- A concrete set of battle draws: no strength noise, casualty draws
at 0.10 (victory branch) and 0.20 (defeat branch), no general deaths. -/
def sample_battle_draws : BattleDraws :=
  ⟨0, 0, 1/10, 1/5, fun _ => 1⟩

/-- A one-entry cache directory holding a fresh truthy response under
the key for prompt `p` and model `m`. -/
def fresh_cache : CacheState :=
  [(get_cache_key "p" "m", ⟨0, .obj [("text", .str "hi")]⟩)]

/-- A gateway environment at hour 10 whose external tool fails, so the
only way `call_opencode` can answer is from the cache. -/
def fresh_cache_env : GatewayEnv :=
  ⟨fun _ _ => .finished 1 "" "boom", loads_stub, 10⟩

/-- The state `process_turn` produces from the initial state on choice 0
without a diversion (used to instantiate theorems at a concrete run):
choice 0 costs 8000 troops, adds 5000 gold and Northern Italy; the
sequencer steps to the Austrian counterattack; spring morale and
territory income then apply. -/
def turn_result : GameState :=
  { year := 1796,
    season := "summer",
    player := {
      troops := 42000,
      gold := 11800,
      morale := 100,
      territories := ["France", "Northern Italy"],
      allies := [],
      enemies := ["Austria", "Britain", "Russia", "Prussia"],
      traits := [],
      generals := [],
      artifacts := [] },
    currentEvent := some austrian_counterattack_1796,
    turnCount := 1,
    gameOver := false,
    historicalAccuracy := 100 }

/-- The state after the 0.2-draw diversion splices the rewired
`supply_shortage` side event over the initial state. -/
def spliced_state : GameState :=
  { initial_game_state with
    currentEvent :=
      some (rewire_side_event supply_shortage "austrian_counterattack_1796") }

/-- The state `apply_choice_consequences` produces from the initial
state on choice 0. -/
def choice_result : GameState :=
  (apply_choice_consequences initial_game_state 0).toOption.getD
    initial_game_state

/-- The state `apply_seasonal_effects` produces from the initial
state. -/
def season_result : GameState :=
  (apply_seasonal_effects initial_game_state).toOption.getD
    initial_game_state

/-- The indebted state with its army disbanded (no maintenance bill). -/
def zero_troops_state : GameState :=
  { indebted_state with player := { indebted_state.player with troops := 0 } }

/-! ## Helper lemmas -/

theorem foldl_proj_eq {β : Type} {π : Player → β} {f : Player → String → Player}
    (hf : ∀ p x, π (f p x) = π p) :
    ∀ (xs : List String) (p : Player), π (xs.foldl f p) = π p := by
  intro xs
  induction xs with
  | nil => intro p; rfl
  | cons x xs ih => intro p; rw [List.foldl_cons, ih, hf]

theorem applyAlly_fields (p : Player) (a : String) :
    (applyAlly p a).troops = p.troops ∧ (applyAlly p a).gold = p.gold ∧
    (applyAlly p a).morale = p.morale ∧
    (applyAlly p a).territories = p.territories ∧
    (applyAlly p a).traits = p.traits ∧
    (applyAlly p a).generals = p.generals ∧
    (applyAlly p a).artifacts = p.artifacts := by
  simp only [applyAlly]
  split <;> split <;> exact ⟨rfl, rfl, rfl, rfl, rfl, rfl, rfl⟩

theorem applyEnemy_fields (p : Player) (a : String) :
    (applyEnemy p a).troops = p.troops ∧ (applyEnemy p a).gold = p.gold ∧
    (applyEnemy p a).morale = p.morale ∧
    (applyEnemy p a).territories = p.territories ∧
    (applyEnemy p a).traits = p.traits ∧
    (applyEnemy p a).generals = p.generals ∧
    (applyEnemy p a).artifacts = p.artifacts := by
  simp only [applyEnemy]
  split <;> split <;> exact ⟨rfl, rfl, rfl, rfl, rfl, rfl, rfl⟩

theorem applyTerritory_fields (p : Player) (t : String) :
    (applyTerritory p t).troops = p.troops ∧ (applyTerritory p t).gold = p.gold ∧
    (applyTerritory p t).morale = p.morale ∧
    (applyTerritory p t).allies = p.allies ∧
    (applyTerritory p t).enemies = p.enemies := by
  simp only [applyTerritory]
  split <;> exact ⟨rfl, rfl, rfl, rfl, rfl⟩

theorem except_bind_ok {ε α β : Type} {x : Except ε α} {f : α → Except ε β}
    {b : β} (h : x >>= f = .ok b) : ∃ a, x = .ok a ∧ f a = .ok b := by
  cases x with
  | ok a => exact ⟨a, rfl, h⟩
  | error e => exact absurd h (by simp [Bind.bind, Except.bind])

/-! ## Claim theorems -/

/-- C7: `calculateDiplomacySuccess` equals
`0.5 + min(0.3, gold/50000) + (morale-50)/100 + alliesCount*0.05 +
nation modifier` clamped to `[0.1, 0.9]`; it always lies in
`[0.1, 0.9]`, is a deterministic function of its inputs, and is
non-decreasing in gold, morale and ally count separately. -/
theorem C7_diplomacy_formula :
    (∀ t g m a, calculate_diplomacy_success t g m a =
      max (1/10) (min (9/10)
        (1/2 + min (3/10) ((g : ℚ) / 50000) + ((m : ℚ) - 50) / 100 +
          (a : ℚ) * (5/100) + nation_modifier t))) ∧
    (∀ t g m a, 1/10 ≤ calculate_diplomacy_success t g m a ∧
      calculate_diplomacy_success t g m a ≤ 9/10) ∧
    (∀ t g g' m a, g ≤ g' →
      calculate_diplomacy_success t g m a ≤ calculate_diplomacy_success t g' m a) ∧
    (∀ t g m m' a, m ≤ m' →
      calculate_diplomacy_success t g m a ≤ calculate_diplomacy_success t g m' a) ∧
    (∀ t g m a a', a ≤ a' →
      calculate_diplomacy_success t g m a ≤ calculate_diplomacy_success t g m a') := by
  refine ⟨fun t g m a => rfl, fun t g m a => ⟨le_max_left _ _, ?_⟩, ?_, ?_, ?_⟩
  · exact max_le (by norm_num) (min_le_left _ _)
  · intro t g g' m a h
    simp only [calculate_diplomacy_success]
    gcongr
  · intro t g m m' a h
    simp only [calculate_diplomacy_success]
    gcongr
  · intro t g m a a' h
    simp only [calculate_diplomacy_success]
    gcongr

/-- C7 witness: the monotonicity and range clauses instantiated at
concrete inputs. -/
theorem C7_diplomacy_formula_witness :
    calculate_diplomacy_success "Austria" 10000 60 1 ≤
      calculate_diplomacy_success "Austria" 20000 60 1 ∧
    1/10 ≤ calculate_diplomacy_success "Britain" (-100000) 0 0 ∧
    calculate_diplomacy_success "Spain" 10000000 100 9 ≤ 9/10 :=
  ⟨C7_diplomacy_formula.2.2.1 "Austria" 10000 20000 60 1 (by norm_num),
   (C7_diplomacy_formula.2.1 "Britain" (-100000) 0 0).1,
   (C7_diplomacy_formula.2.1 "Spain" 10000000 100 9).2⟩

/-- C2 counterexample: on the initial state (3 choices), index `-1`
applies the third choice (gold rises from 10000 to 11000, so the result
is not the unchanged state), and index `-4` raises `IndexError`; the
claim says all negative indices are silent no-ops. -/
theorem C2_counterexample :
    apply_choice_consequences initial_game_state (-1) ≠
      .ok initial_game_state ∧
    apply_choice_consequences initial_game_state (-4) =
      .error "IndexError" := by
  constructor
  · intro h
    have h2 : ((apply_choice_consequences initial_game_state (-1)).toOption.map
        (fun s => s.player.gold)).getD 0 =
        (((.ok initial_game_state : Except String GameState)).toOption.map
        (fun s => s.player.gold)).getD 0 := by rw [h]
    exact absurd h2 (by decide)
  · rfl

/-- C3 counterexample: a state at the debt ceiling (gold = -10000) with
10000 troops and no territories, allies, traits, generals or artifacts;
`generate_income` charges the 1000-gold troop maintenance without a
clamp, leaving gold = -11000 < -10000. -/
theorem C3_counterexample :
    -10000 ≤ indebted_state.player.gold ∧
    (generate_income indebted_state).player.gold < -10000 :=
  ⟨by decide, by decide⟩

/-- C9 counterexample: with the current event offering 3 choices, the
out-of-range choice `-4` makes `process_turn` raise `IndexError` out of
the choice application, so the turn count is not advanced on every
out-of-range choice argument. -/
theorem C9_counterexample :
    process_turn no_diversion_env initial_game_state (some (-4)) =
      .error "IndexError" := rfl


theorem foldl_applyTerritory_gold : ∀ (xs : List String) (p : Player),
    (xs.foldl applyTerritory p).gold = p.gold := by
  intro xs
  induction xs with
  | nil => intro p; rfl
  | cons x xs ih =>
    intro p
    rw [List.foldl_cons, ih, (applyTerritory_fields p x).2.1]

theorem foldl_applyAlly_gold : ∀ (xs : List String) (p : Player),
    (xs.foldl applyAlly p).gold = p.gold := by
  intro xs
  induction xs with
  | nil => intro p; rfl
  | cons x xs ih =>
    intro p
    rw [List.foldl_cons, ih, (applyAlly_fields p x).2.1]

theorem foldl_applyEnemy_gold : ∀ (xs : List String) (p : Player),
    (xs.foldl applyEnemy p).gold = p.gold := by
  intro xs
  induction xs with
  | nil => intro p; rfl
  | cons x xs ih =>
    intro p
    rw [List.foldl_cons, ih, (applyEnemy_fields p x).2.1]

theorem apply_resource_gold_floor (p : Player) (r : String) (c : PyVal)
    (p' : Player) (h : apply_resource p r c = .ok p') (hg : -10000 ≤ p.gold) :
    -10000 ≤ p'.gold := by
  unfold apply_resource at h
  rcases eq_or_ne r "troops" with h1 | h1
  · rw [if_pos h1] at h
    cases c with
    | vint n => cases h; exact hg
    | vstr a => exact Except.noConfusion h
    | vlist a => exact Except.noConfusion h
    | vnone => exact Except.noConfusion h
  rw [if_neg h1] at h
  rcases eq_or_ne r "gold" with h2 | h2
  · rw [if_pos h2] at h
    cases c with
    | vint n => cases h; exact le_max_left _ _
    | vstr a => exact Except.noConfusion h
    | vlist a => exact Except.noConfusion h
    | vnone => exact Except.noConfusion h
  rw [if_neg h2] at h
  rcases eq_or_ne r "morale" with h3 | h3
  · rw [if_pos h3] at h
    cases c with
    | vint n => cases h; exact hg
    | vstr a => exact Except.noConfusion h
    | vlist a => exact Except.noConfusion h
    | vnone => exact Except.noConfusion h
  rw [if_neg h3] at h
  rcases eq_or_ne r "territories" with h4 | h4
  · rw [if_pos h4] at h
    cases c with
    | vlist xs => cases h; rw [foldl_applyTerritory_gold]; exact hg
    | vint n => cases h; exact hg
    | vstr a => cases h; exact hg
    | vnone => cases h; exact hg
  rw [if_neg h4] at h
  rcases eq_or_ne r "allies" with h5 | h5
  · rw [if_pos h5] at h
    cases c with
    | vlist xs => cases h; rw [foldl_applyAlly_gold]; exact hg
    | vint n => cases h; exact hg
    | vstr a => cases h; exact hg
    | vnone => cases h; exact hg
  rw [if_neg h5] at h
  rcases eq_or_ne r "enemies" with h6 | h6
  · rw [if_pos h6] at h
    cases c with
    | vlist xs => cases h; rw [foldl_applyEnemy_gold]; exact hg
    | vint n => cases h; exact hg
    | vstr a => cases h; exact hg
    | vnone => cases h; exact hg
  rw [if_neg h6] at h
  rcases eq_or_ne r "next_event" with h7 | h7
  · rw [if_pos h7] at h
    cases h; exact hg
  rw [if_neg h7] at h
  rcases eq_or_ne r "add_trait" with h8 | h8
  · rw [if_pos h8] at h
    cases h
    split <;> exact hg
  rw [if_neg h8] at h
  rcases eq_or_ne r "add_general" with h9 | h9
  · rw [if_pos h9] at h
    cases h
    split <;> exact hg
  rw [if_neg h9] at h
  rcases eq_or_ne r "add_artifact" with h10 | h10
  · rw [if_pos h10] at h
    cases h
    split <;> exact hg
  rw [if_neg h10] at h
  cases h; exact hg

theorem apply_resources_gold_floor :
    ∀ (l : List (String × PyVal)) (p p' : Player),
      apply_resources p l = .ok p' → -10000 ≤ p.gold → -10000 ≤ p'.gold := by
  intro l
  induction l with
  | nil => intro p p' h hg; cases h; exact hg
  | cons rc rest ih =>
    intro p p' h hg
    obtain ⟨r, c⟩ := rc
    unfold apply_resources at h
    split at h
    · rename_i p1 hr
      exact ih p1 p' h (apply_resource_gold_floor p r c p1 hr hg)
    · exact Except.noConfusion h

/-- C3 (amended): the debt ceiling `gold ≥ -10000` is preserved by
`apply_choice_consequences` and `apply_seasonal_effects`, while
`generate_income` charges troop maintenance with no clamp, so it
preserves the ceiling only under a side condition — here, for a player
with no traits, generals or artifacts, whenever the maintenance bill
`troops // 1000 * 100` does not exceed the territory and ally income. -/
theorem C3_amended :
    (∀ s i s', -10000 ≤ s.player.gold →
      apply_choice_consequences s i = .ok s' → -10000 ≤ s'.player.gold) ∧
    (∀ s s', -10000 ≤ s.player.gold →
      apply_seasonal_effects s = .ok s' → -10000 ≤ s'.player.gold) ∧
    (∀ s, s.player.traits = [] → s.player.generals = [] →
      s.player.artifacts = [] → -10000 ≤ s.player.gold →
      s.player.troops.fdiv 1000 * 100 ≤
        (s.player.territories.length : Int) * 500 +
          (s.player.allies.length : Int) * 200 →
      -10000 ≤ (generate_income s).player.gold) := by
  refine ⟨?_, ?_, ?_⟩
  · intro s i s' hg h
    unfold apply_choice_consequences at h
    split at h
    · cases h; exact hg
    · split at h
      · cases h; exact hg
      · split at h
        · cases h; exact hg
        · split at h
          · exact Except.noConfusion h
          · split at h
            · rename_i p1 har
              cases h
              exact apply_resources_gold_floor _ s.player p1 har hg
            · exact Except.noConfusion h
  · intro s s' hg h
    unfold apply_seasonal_effects at h
    cases hidx : seasons.indexOf? s.season with
    | none =>
      simp only [hidx] at h
      exact Except.noConfusion h
    | some j =>
      simp only [hidx] at h
      cases h
      split_ifs <;> dsimp only
      · exact le_max_left _ _
      · exact hg
      · have h0 : (0 : Int) ≤ (s.player.territories.length : Int) * 100 := by
          positivity
        omega
      · exact hg
  · intro s ht hgen hart hg hcover
    simp only [generate_income, ht, hgen, hart, List.foldl_nil]
    omega

/-- C3 witness: the amended preservation statement instantiated at
concrete states. -/
theorem C3_amended_witness :
    -10000 ≤ choice_result.player.gold ∧
    -10000 ≤ season_result.player.gold ∧
    -10000 ≤ (generate_income zero_troops_state).player.gold :=
  ⟨C3_amended.1 initial_game_state 0 choice_result (by decide) rfl,
   C3_amended.2.1 initial_game_state season_result (by decide) rfl,
   C3_amended.2.2 zero_troops_state rfl rfl rfl (by decide) (by decide)⟩

/-- C2 (amended): `apply_choice_consequences` is the identity (and
never raises) when there is no current event, when the event has no
`choices` key, or when the index is at least the choice count; but an
index in `[-len, 0)` applies a choice via Python wraparound indexing,
and an index below `-len(choices)` raises `IndexError`. -/
theorem C2_amended (s : GameState) (i : Int) :
    (s.currentEvent = none → apply_choice_consequences s i = .ok s) ∧
    (∀ ev, s.currentEvent = some ev → ev.choices = none →
      apply_choice_consequences s i = .ok s) ∧
    (∀ ev cs, s.currentEvent = some ev → ev.choices = some cs →
      (cs.length : Int) ≤ i → apply_choice_consequences s i = .ok s) ∧
    (∀ ev cs, s.currentEvent = some ev → ev.choices = some cs →
      i < -(cs.length : Int) →
      apply_choice_consequences s i = .error "IndexError") := by
  refine ⟨?_, ?_, ?_, ?_⟩
  · intro h
    unfold apply_choice_consequences
    rw [h]
  · intro ev h hc
    unfold apply_choice_consequences
    rw [h]
    dsimp only
    rw [hc]
  · intro ev cs h hc hi
    unfold apply_choice_consequences
    rw [h]
    dsimp only
    rw [hc]
    dsimp only
    rw [if_pos hi]
  · intro ev cs h hc hi
    have h1 : i < 0 := by omega
    have h2 : ¬ (0 ≤ i + (cs.length : Int)) := by omega
    unfold apply_choice_consequences
    rw [h]
    dsimp only
    rw [hc]
    dsimp only
    rw [if_neg (by omega : ¬ ((cs.length : Int) ≤ i))]
    have hp : pyIndex cs i = none := by
      simp only [pyIndex]
      rw [if_pos h1, if_neg h2]
    rw [hp]

/-- C2 witness: the amended theorem instantiated at the initial state
with the out-of-range index 5 (the current event offers 3 choices). -/
theorem C2_amended_witness :
    apply_choice_consequences initial_game_state 5 = .ok initial_game_state :=
  (C2_amended initial_game_state 5).2.2.1 italian_campaign_1796
    (italian_campaign_1796.choices.getD []) rfl rfl (by decide)

theorem apply_choice_meta (s : GameState) (i : Int) (s' : GameState)
    (h : apply_choice_consequences s i = .ok s') :
    s'.turnCount = s.turnCount ∧ s'.season = s.season := by
  unfold apply_choice_consequences at h
  split at h
  · cases h; exact ⟨rfl, rfl⟩
  · split at h
    · cases h; exact ⟨rfl, rfl⟩
    · split at h
      · cases h; exact ⟨rfl, rfl⟩
      · split at h
        · exact Except.noConfusion h
        · split at h
          · cases h; exact ⟨rfl, rfl⟩
          · exact Except.noConfusion h

theorem advance_main_meta (s : GameState) (oe : Option Event)
    (s' : GameState) (h : advance_to_next_event.advance_main s oe = .ok s') :
    s'.turnCount = s.turnCount ∧ s'.season = s.season := by
  unfold advance_to_next_event.advance_main at h
  cases oe with
  | some ne => cases h; exact ⟨rfl, rfl⟩
  | none => cases h; exact ⟨rfl, rfl⟩

theorem advance_meta (env : SequencerEnv) (s s' : GameState)
    (h : advance_to_next_event env s = .ok s') :
    s'.turnCount = s.turnCount ∧ s'.season = s.season := by
  unfold advance_to_next_event at h
  split at h
  · cases h; exact ⟨rfl, rfl⟩
  · dsimp only at h
    repeat split at h
    all_goals first
      | exact Except.noConfusion h
      | (cases h; exact ⟨rfl, rfl⟩)
      | exact advance_main_meta s _ s' h

theorem seasonal_meta (s s' : GameState)
    (h : apply_seasonal_effects s = .ok s') :
    s'.turnCount = s.turnCount ∧ next_season s.season = some s'.season := by
  unfold apply_seasonal_effects at h
  cases hidx : seasons.indexOf? s.season with
  | none =>
    simp only [hidx] at h
    exact Except.noConfusion h
  | some j =>
    simp only [hidx] at h
    cases h
    exact ⟨rfl, by simp [next_season, hidx]⟩

theorem except_ok_bind {ε α β : Type} (a : α) (f : α → Except ε β) :
    (Except.ok a : Except ε α) >>= f = f a := rfl

theorem half_not_lt : ¬ ((1 : ℚ)/2 < 3/10) := by norm_num

theorem fifth_lt : (1 : ℚ)/5 < 3/10 := by norm_num

/-- Evaluation rule for `advance_to_next_event` on a non-terminal event
with choices when the 30% diversion is declined: the sequencer steps to
the looked-up successor. -/
theorem advance_step_no_div (env : SequencerEnv) (s : GameState)
    (cur : Event) (cs : List Choice) (nid : String)
    (hce : s.currentEvent = some cur) (hch : cur.choices = some cs)
    (hlen : 0 < cs.length) (hnid : get_next_event_id cur.id = some nid)
    (hno : ¬ (cur.eventType ≠ some "random" ∧ env.draw < 3/10)) :
    advance_to_next_event env s =
      advance_to_next_event.advance_main s (env.getEvent nid) := by
  unfold advance_to_next_event
  rw [hce]
  dsimp only
  rw [hch]
  dsimp only
  rw [if_pos hlen, hnid]
  dsimp only
  rw [if_neg hno]

/-- Evaluation rule for `advance_to_next_event` when the 30% diversion
fires: the rewired deep copy of the side event is spliced in. -/
theorem advance_step_div (env : SequencerEnv) (s : GameState)
    (cur : Event) (cs : List Choice) (nid : String) (re : Event)
    (rcs : List Choice)
    (hce : s.currentEvent = some cur) (hch : cur.choices = some cs)
    (hlen : 0 < cs.length) (hnid : get_next_event_id cur.id = some nid)
    (hyes : cur.eventType ≠ some "random" ∧ env.draw < 3/10)
    (hre : env.randomEvent = some re) (hrc : re.choices = some rcs) :
    advance_to_next_event env s =
      .ok { s with currentEvent := some (rewire_side_event re nid) } := by
  unfold advance_to_next_event
  rw [hce]
  dsimp only
  rw [hch]
  dsimp only
  rw [if_pos hlen, hnid]
  dsimp only
  rw [if_pos hyes, hre]
  dsimp only
  rw [hrc]

/-- Concrete evaluation of the full turn pipeline: the initial state,
choice 0, draw 0.5 (no diversion). -/
theorem process_turn_no_div_eval :
    process_turn no_diversion_env initial_game_state (some 0) =
      .ok turn_result := by
  have ha : apply_choice_consequences initial_game_state 0 =
      .ok { initial_game_state with
        player := {
          troops := 42000,
          gold := 15000,
          morale := 100,
          territories := ["France", "Northern Italy"],
          allies := [],
          enemies := ["Austria", "Britain", "Russia", "Prussia"],
          traits := [],
          generals := [],
          artifacts := [] } } := by rfl
  have hb : advance_to_next_event no_diversion_env
      { initial_game_state with
        player := {
          troops := 42000,
          gold := 15000,
          morale := 100,
          territories := ["France", "Northern Italy"],
          allies := [],
          enemies := ["Austria", "Britain", "Russia", "Prussia"],
          traits := [],
          generals := [],
          artifacts := [] } } =
      .ok { initial_game_state with
        player := {
          troops := 42000,
          gold := 15000,
          morale := 100,
          territories := ["France", "Northern Italy"],
          allies := [],
          enemies := ["Austria", "Britain", "Russia", "Prussia"],
          traits := [],
          generals := [],
          artifacts := [] },
        currentEvent := some austrian_counterattack_1796 } := by
    rw [advance_step_no_div no_diversion_env _ italian_campaign_1796
      (italian_campaign_1796.choices.getD []) "austrian_counterattack_1796"
      rfl rfl (by decide) rfl (fun hc => absurd hc.2 half_not_lt)]
    rfl
  unfold process_turn
  dsimp only
  rw [ha, except_ok_bind]
  dsimp only
  rw [hb, except_ok_bind]
  rfl

/-- C9 (amended): whenever `process_turn` returns a state (rather than
raising, as it does on a choice index below `-len(choices)`), that
state's turn counter is exactly one higher and its season is the
cyclic successor of the input season, for every environment, state and
choice argument. -/
theorem C9_amended (env : SequencerEnv) (s : GameState) (choice : Option Int)
    (s' : GameState) (h : process_turn env s choice = .ok s') :
    s'.turnCount = s.turnCount + 1 ∧ next_season s.season = some s'.season := by
  unfold process_turn at h
  cases choice with
  | none =>
    dsimp only at h
    obtain ⟨s1, h1, h2⟩ := except_bind_ok h
    obtain ⟨s3, h3, h4⟩ := except_bind_ok h2
    cases h4
    have hm := advance_meta env s s1 h1
    have m3 := seasonal_meta _ s3 h3
    have ht : s3.turnCount = s1.turnCount + 1 := m3.1
    constructor
    · show s3.turnCount = s.turnCount + 1
      rw [ht, hm.1]
    · show next_season s.season = some s3.season
      rw [← hm.2]
      exact m3.2
  | some c =>
    dsimp only at h
    obtain ⟨sa, hc1, hrest⟩ := except_bind_ok h
    obtain ⟨s1, hc2, h2⟩ := except_bind_ok hrest
    obtain ⟨s3, h3, h4⟩ := except_bind_ok h2
    cases h4
    have hm1 := apply_choice_meta s c sa hc1
    have hm2 := advance_meta env sa s1 hc2
    have m3 := seasonal_meta _ s3 h3
    have ht : s3.turnCount = s1.turnCount + 1 := m3.1
    constructor
    · show s3.turnCount = s.turnCount + 1
      rw [ht, hm2.1, hm1.1]
    · show next_season s.season = some s3.season
      rw [← hm1.2, ← hm2.2]
      exact m3.2

/-- C9 witness: the amended theorem instantiated at the initial state
with choice 0 and no diversion: the turn counter rises from 0 to 1 and
spring advances to summer. -/
theorem C9_amended_witness :
    turn_result.turnCount = initial_game_state.turnCount + 1 ∧
    next_season initial_game_state.season = some turn_result.season :=
  C9_amended no_diversion_env initial_game_state (some 0) turn_result
    process_turn_no_div_eval

theorem apply_resource_collections (p : Player) (r : String) (v : PyVal)
    (p' : Player) (h : apply_resource p r v = .ok p')
    (hr : (r = "territories" ∨ r = "allies" ∨ r = "enemies") →
      v.isPyList = false) :
    p'.territories = p.territories ∧ p'.allies = p.allies ∧
      p'.enemies = p.enemies := by
  unfold apply_resource at h
  rcases eq_or_ne r "troops" with h1 | h1
  · rw [if_pos h1] at h
    cases v with
    | vint n => cases h; exact ⟨rfl, rfl, rfl⟩
    | vstr a => exact Except.noConfusion h
    | vlist a => exact Except.noConfusion h
    | vnone => exact Except.noConfusion h
  rw [if_neg h1] at h
  rcases eq_or_ne r "gold" with h2 | h2
  · rw [if_pos h2] at h
    cases v with
    | vint n => cases h; exact ⟨rfl, rfl, rfl⟩
    | vstr a => exact Except.noConfusion h
    | vlist a => exact Except.noConfusion h
    | vnone => exact Except.noConfusion h
  rw [if_neg h2] at h
  rcases eq_or_ne r "morale" with h3 | h3
  · rw [if_pos h3] at h
    cases v with
    | vint n => cases h; exact ⟨rfl, rfl, rfl⟩
    | vstr a => exact Except.noConfusion h
    | vlist a => exact Except.noConfusion h
    | vnone => exact Except.noConfusion h
  rw [if_neg h3] at h
  rcases eq_or_ne r "territories" with h4 | h4
  · rw [if_pos h4] at h
    have hv := hr (Or.inl h4)
    cases v with
    | vlist xs => exact absurd hv (by simp [PyVal.isPyList])
    | vint n => cases h; exact ⟨rfl, rfl, rfl⟩
    | vstr a => cases h; exact ⟨rfl, rfl, rfl⟩
    | vnone => cases h; exact ⟨rfl, rfl, rfl⟩
  rw [if_neg h4] at h
  rcases eq_or_ne r "allies" with h5 | h5
  · rw [if_pos h5] at h
    have hv := hr (Or.inr (Or.inl h5))
    cases v with
    | vlist xs => exact absurd hv (by simp [PyVal.isPyList])
    | vint n => cases h; exact ⟨rfl, rfl, rfl⟩
    | vstr a => cases h; exact ⟨rfl, rfl, rfl⟩
    | vnone => cases h; exact ⟨rfl, rfl, rfl⟩
  rw [if_neg h5] at h
  rcases eq_or_ne r "enemies" with h6 | h6
  · rw [if_pos h6] at h
    have hv := hr (Or.inr (Or.inr h6))
    cases v with
    | vlist xs => exact absurd hv (by simp [PyVal.isPyList])
    | vint n => cases h; exact ⟨rfl, rfl, rfl⟩
    | vstr a => cases h; exact ⟨rfl, rfl, rfl⟩
    | vnone => cases h; exact ⟨rfl, rfl, rfl⟩
  rw [if_neg h6] at h
  rcases eq_or_ne r "next_event" with h7 | h7
  · rw [if_pos h7] at h
    cases h; exact ⟨rfl, rfl, rfl⟩
  rw [if_neg h7] at h
  rcases eq_or_ne r "add_trait" with h8 | h8
  · rw [if_pos h8] at h
    cases h
    split <;> exact ⟨rfl, rfl, rfl⟩
  rw [if_neg h8] at h
  rcases eq_or_ne r "add_general" with h9 | h9
  · rw [if_pos h9] at h
    cases h
    split <;> exact ⟨rfl, rfl, rfl⟩
  rw [if_neg h9] at h
  rcases eq_or_ne r "add_artifact" with h10 | h10
  · rw [if_pos h10] at h
    cases h
    split <;> exact ⟨rfl, rfl, rfl⟩
  rw [if_neg h10] at h
  cases h; exact ⟨rfl, rfl, rfl⟩

theorem apply_resources_collections :
    ∀ (l : List (String × PyVal)) (p p' : Player),
      apply_resources p l = .ok p' →
      (∀ r v, (r, v) ∈ l →
        (r = "territories" ∨ r = "allies" ∨ r = "enemies") →
        v.isPyList = false) →
      p'.territories = p.territories ∧ p'.allies = p.allies ∧
        p'.enemies = p.enemies := by
  intro l
  induction l with
  | nil => intro p p' h _; cases h; exact ⟨rfl, rfl, rfl⟩
  | cons rc rest ih =>
    intro p p' h hl
    obtain ⟨r, v⟩ := rc
    unfold apply_resources at h
    split at h
    · rename_i p1 hr1
      have hstep := apply_resource_collections p r v p1 hr1
        (hl r v (List.mem_cons_self _ _))
      have hrest := ih p1 p' h
        (fun r' v' hm hx => hl r' v' (List.mem_cons_of_mem _ hm) hx)
      exact ⟨hrest.1.trans hstep.1, hrest.2.1.trans hstep.2.1,
        hrest.2.2.trans hstep.2.2⟩
    · exact Except.noConfusion h

/-- C10: when the `territories`, `allies` or `enemies` consequence
value of a choice is not a list (a string, a number, `None`), the
consequence loop silently ignores it: the single-key step is the exact
identity and raises nothing, and a whole choice all of whose
collection-keyed values are non-lists leaves the player's territories,
allies and enemies collections unchanged. -/
theorem C10_nonlist_collections_ignored :
    (∀ p c, c.isPyList = false →
      apply_resource p "territories" c = .ok p ∧
      apply_resource p "allies" c = .ok p ∧
      apply_resource p "enemies" c = .ok p) ∧
    (∀ s i s' ev cs choice,
      s.currentEvent = some ev → ev.choices = some cs →
      pyIndex cs i = some choice →
      (∀ r v, (r, v) ∈ choice.consequences →
        (r = "territories" ∨ r = "allies" ∨ r = "enemies") →
        v.isPyList = false) →
      apply_choice_consequences s i = .ok s' →
      s'.player.territories = s.player.territories ∧
      s'.player.allies = s.player.allies ∧
      s'.player.enemies = s.player.enemies) := by
  constructor
  · intro p c hc
    cases c with
    | vlist xs => exact absurd hc (by simp [PyVal.isPyList])
    | vint n => exact ⟨rfl, rfl, rfl⟩
    | vstr a => exact ⟨rfl, rfl, rfl⟩
    | vnone => exact ⟨rfl, rfl, rfl⟩
  · intro s i s' ev cs choice hce hch hpi hv h
    unfold apply_choice_consequences at h
    rw [hce] at h
    dsimp only at h
    rw [hch] at h
    dsimp only at h
    split_ifs at h
    · cases h; exact ⟨rfl, rfl, rfl⟩
    · rw [hpi] at h
      dsimp only at h
      split at h
      · rename_i p1 har
        cases h
        exact apply_resources_collections choice.consequences s.player p1 har hv
      · exact Except.noConfusion h

/-- C10 witness: the theorem instantiated at a choice whose
territories/allies/enemies values are a string, an int and `None`: the
three collections survive unchanged (while the gold delta applies). -/
theorem C10_witness :
    (apply_resource initial_game_state.player "territories"
      (.vstr "Lombardy") = .ok initial_game_state.player) ∧
    (bad_value_result.player.territories =
      bad_value_state.player.territories ∧
     bad_value_result.player.allies = bad_value_state.player.allies ∧
     bad_value_result.player.enemies = bad_value_state.player.enemies) :=
  ⟨(C10_nonlist_collections_ignored.1 initial_game_state.player
      (.vstr "Lombardy") rfl).1,
   C10_nonlist_collections_ignored.2 bad_value_state 0 bad_value_result
     bad_value_event (bad_value_event.choices.getD [])
     ((bad_value_event.choices.getD []).headD ⟨"", []⟩) rfl rfl rfl
     (by
       intro r v hm hx
       simp [bad_value_event] at hm
       rcases hm with ⟨rfl, rfl⟩ | ⟨rfl, rfl⟩ | ⟨rfl, rfl⟩ | ⟨rfl, rfl⟩ <;> rfl)
     rfl⟩

theorem applyAlly_inv (p : Player) (a : String) (h : AllyEnemyInv p) :
    AllyEnemyInv (applyAlly p a) := by
  obtain ⟨h1, h2, h3⟩ := h
  simp only [applyAlly]
  split_ifs with hmem hen hen2
  · exact absurd hen (h3 a hmem)
  · exact ⟨h1, h2, h3⟩
  · refine ⟨?_, List.Nodup.erase a h2, ?_⟩
    · exact List.Nodup.append h1 (List.nodup_singleton a) (by
        intro x hx hxa
        rw [List.mem_singleton] at hxa
        subst hxa
        exact hmem hx)
    · intro x hx
      rw [List.mem_append, List.mem_singleton] at hx
      rcases hx with hx | rfl
      · intro hc
        exact h3 x hx (List.mem_of_mem_erase hc)
      · intro hc
        exact ((List.Nodup.mem_erase_iff h2).mp hc).1 rfl
  · refine ⟨?_, h2, ?_⟩
    · exact List.Nodup.append h1 (List.nodup_singleton a) (by
        intro x hx hxa
        rw [List.mem_singleton] at hxa
        subst hxa
        exact hmem hx)
    · intro x hx
      rw [List.mem_append, List.mem_singleton] at hx
      rcases hx with hx | rfl
      · exact h3 x hx
      · exact hen2

theorem applyEnemy_inv (p : Player) (a : String) (h : AllyEnemyInv p) :
    AllyEnemyInv (applyEnemy p a) := by
  obtain ⟨h1, h2, h3⟩ := h
  have h3' : ∀ x, x ∈ p.enemies → x ∉ p.allies := by
    intro x hx hc
    exact h3 x hc hx
  simp only [applyEnemy]
  split_ifs with hmem hen hen2
  · exact absurd hen (h3' a hmem)
  · exact ⟨h1, h2, h3⟩
  · refine ⟨List.Nodup.erase a h1, ?_, ?_⟩
    · exact List.Nodup.append h2 (List.nodup_singleton a) (by
        intro x hx hxa
        rw [List.mem_singleton] at hxa
        subst hxa
        exact hmem hx)
    · intro x hx hc
      rw [List.mem_append, List.mem_singleton] at hc
      rcases hc with hc | rfl
      · exact h3 x (List.mem_of_mem_erase hx) hc
      · exact ((List.Nodup.mem_erase_iff h1).mp hx).1 rfl
  · refine ⟨h1, ?_, ?_⟩
    · exact List.Nodup.append h2 (List.nodup_singleton a) (by
        intro x hx hxa
        rw [List.mem_singleton] at hxa
        subst hxa
        exact hmem hx)
    · intro x hx hc
      rw [List.mem_append, List.mem_singleton] at hc
      rcases hc with hc | rfl
      · exact h3 x hx hc
      · exact hen2 hx

theorem foldl_pred {f : Player → String → Player} {P : Player → Prop}
    (hf : ∀ p x, P p → P (f p x)) :
    ∀ (xs : List String) (p : Player), P p → P (xs.foldl f p) := by
  intro xs
  induction xs with
  | nil => exact fun p hp => hp
  | cons x xs ih =>
    intro p hp
    rw [List.foldl_cons]
    exact ih (f p x) (hf p x hp)

theorem foldl_applyTerritory_fields : ∀ (xs : List String) (p : Player),
    (xs.foldl applyTerritory p).troops = p.troops ∧
    (xs.foldl applyTerritory p).gold = p.gold ∧
    (xs.foldl applyTerritory p).morale = p.morale ∧
    (xs.foldl applyTerritory p).allies = p.allies ∧
    (xs.foldl applyTerritory p).enemies = p.enemies := by
  intro xs
  induction xs with
  | nil => exact fun p => ⟨rfl, rfl, rfl, rfl, rfl⟩
  | cons x xs ih =>
    intro p
    rw [List.foldl_cons]
    have hf := applyTerritory_fields p x
    have hi := ih (applyTerritory p x)
    exact ⟨hi.1.trans hf.1, hi.2.1.trans hf.2.1, hi.2.2.1.trans hf.2.2.1,
      hi.2.2.2.1.trans hf.2.2.2.1, hi.2.2.2.2.trans hf.2.2.2.2⟩

theorem foldl_applyAlly_meta : ∀ (xs : List String) (p : Player),
    (xs.foldl applyAlly p).troops = p.troops ∧
    (xs.foldl applyAlly p).gold = p.gold ∧
    (xs.foldl applyAlly p).morale = p.morale := by
  intro xs
  induction xs with
  | nil => exact fun p => ⟨rfl, rfl, rfl⟩
  | cons x xs ih =>
    intro p
    rw [List.foldl_cons]
    have hf := applyAlly_fields p x
    have hi := ih (applyAlly p x)
    exact ⟨hi.1.trans hf.1, hi.2.1.trans hf.2.1, hi.2.2.trans hf.2.2.1⟩

theorem foldl_applyEnemy_meta : ∀ (xs : List String) (p : Player),
    (xs.foldl applyEnemy p).troops = p.troops ∧
    (xs.foldl applyEnemy p).gold = p.gold ∧
    (xs.foldl applyEnemy p).morale = p.morale := by
  intro xs
  induction xs with
  | nil => exact fun p => ⟨rfl, rfl, rfl⟩
  | cons x xs ih =>
    intro p
    rw [List.foldl_cons]
    have hf := applyEnemy_fields p x
    have hi := ih (applyEnemy p x)
    exact ⟨hi.1.trans hf.1, hi.2.1.trans hf.2.1, hi.2.2.trans hf.2.2.1⟩

theorem apply_resource_inv (p : Player) (r : String) (c : PyVal) (p' : Player)
    (h : apply_resource p r c = .ok p') (hinv : PlayerInv p) : PlayerInv p' := by
  obtain ⟨ht, hg, hm0, hm1, hae⟩ := hinv
  unfold apply_resource at h
  rcases eq_or_ne r "troops" with h1 | h1
  · rw [if_pos h1] at h
    cases c with
    | vint n => cases h; exact ⟨le_max_left _ _, hg, hm0, hm1, hae⟩
    | vstr a => exact Except.noConfusion h
    | vlist a => exact Except.noConfusion h
    | vnone => exact Except.noConfusion h
  rw [if_neg h1] at h
  rcases eq_or_ne r "gold" with h2 | h2
  · rw [if_pos h2] at h
    cases c with
    | vint n => cases h; exact ⟨ht, le_max_left _ _, hm0, hm1, hae⟩
    | vstr a => exact Except.noConfusion h
    | vlist a => exact Except.noConfusion h
    | vnone => exact Except.noConfusion h
  rw [if_neg h2] at h
  rcases eq_or_ne r "morale" with h3 | h3
  · rw [if_pos h3] at h
    cases c with
    | vint n =>
      cases h
      exact ⟨ht, hg, le_max_left _ _,
        max_le (by norm_num) (min_le_left _ _), hae⟩
    | vstr a => exact Except.noConfusion h
    | vlist a => exact Except.noConfusion h
    | vnone => exact Except.noConfusion h
  rw [if_neg h3] at h
  rcases eq_or_ne r "territories" with h4 | h4
  · rw [if_pos h4] at h
    cases c with
    | vlist xs =>
      cases h
      have hf := foldl_applyTerritory_fields xs p
      refine ⟨by rw [hf.1]; exact ht, by rw [hf.2.1]; exact hg,
        by rw [hf.2.2.1]; exact hm0, by rw [hf.2.2.1]; exact hm1, ?_⟩
      refine ⟨by rw [hf.2.2.2.1]; exact hae.1,
        by rw [hf.2.2.2.2]; exact hae.2.1, ?_⟩
      rw [hf.2.2.2.1, hf.2.2.2.2]
      exact hae.2.2
    | vint n => cases h; exact ⟨ht, hg, hm0, hm1, hae⟩
    | vstr a => cases h; exact ⟨ht, hg, hm0, hm1, hae⟩
    | vnone => cases h; exact ⟨ht, hg, hm0, hm1, hae⟩
  rw [if_neg h4] at h
  rcases eq_or_ne r "allies" with h5 | h5
  · rw [if_pos h5] at h
    cases c with
    | vlist xs =>
      cases h
      have hf := foldl_applyAlly_meta xs p
      have hin := foldl_pred (fun q x hq => applyAlly_inv q x hq) xs p hae
      exact ⟨by rw [hf.1]; exact ht, by rw [hf.2.1]; exact hg,
        by rw [hf.2.2]; exact hm0, by rw [hf.2.2]; exact hm1, hin⟩
    | vint n => cases h; exact ⟨ht, hg, hm0, hm1, hae⟩
    | vstr a => cases h; exact ⟨ht, hg, hm0, hm1, hae⟩
    | vnone => cases h; exact ⟨ht, hg, hm0, hm1, hae⟩
  rw [if_neg h5] at h
  rcases eq_or_ne r "enemies" with h6 | h6
  · rw [if_pos h6] at h
    cases c with
    | vlist xs =>
      cases h
      have hf := foldl_applyEnemy_meta xs p
      have hin := foldl_pred (fun q x hq => applyEnemy_inv q x hq) xs p hae
      exact ⟨by rw [hf.1]; exact ht, by rw [hf.2.1]; exact hg,
        by rw [hf.2.2]; exact hm0, by rw [hf.2.2]; exact hm1, hin⟩
    | vint n => cases h; exact ⟨ht, hg, hm0, hm1, hae⟩
    | vstr a => cases h; exact ⟨ht, hg, hm0, hm1, hae⟩
    | vnone => cases h; exact ⟨ht, hg, hm0, hm1, hae⟩
  rw [if_neg h6] at h
  rcases eq_or_ne r "next_event" with h7 | h7
  · rw [if_pos h7] at h
    cases h; exact ⟨ht, hg, hm0, hm1, hae⟩
  rw [if_neg h7] at h
  rcases eq_or_ne r "add_trait" with h8 | h8
  · rw [if_pos h8] at h
    cases h
    split <;> exact ⟨ht, hg, hm0, hm1, hae⟩
  rw [if_neg h8] at h
  rcases eq_or_ne r "add_general" with h9 | h9
  · rw [if_pos h9] at h
    cases h
    split <;> exact ⟨ht, hg, hm0, hm1, hae⟩
  rw [if_neg h9] at h
  rcases eq_or_ne r "add_artifact" with h10 | h10
  · rw [if_pos h10] at h
    cases h
    split <;> exact ⟨ht, hg, hm0, hm1, hae⟩
  rw [if_neg h10] at h
  cases h; exact ⟨ht, hg, hm0, hm1, hae⟩

theorem apply_resources_inv :
    ∀ (l : List (String × PyVal)) (p p' : Player),
      apply_resources p l = .ok p' → PlayerInv p → PlayerInv p' := by
  intro l
  induction l with
  | nil => intro p p' h hp; cases h; exact hp
  | cons rc rest ih =>
    intro p p' h hp
    obtain ⟨r, c⟩ := rc
    unfold apply_resources at h
    split at h
    · rename_i p1 hr1
      exact ih p1 p' h (apply_resource_inv p r c p1 hr1 hp)
    · exact Except.noConfusion h

/-- C5: for every valid choice index of the current event, whenever
`apply_choice_consequences` returns a state, that state still satisfies
`troops ≥ 0`, `gold ≥ -10000`, `morale ∈ [0,100]`, and the allies and
enemies collections remain duplicate-free and disjoint (adding a nation
to one removes it from the other), provided the input state satisfied
these bounds. -/
theorem C5_valid_choice_invariants (s : GameState) (i : Int) (s' : GameState)
    (ev : Event) (cs : List Choice)
    (hce : s.currentEvent = some ev) (hch : ev.choices = some cs)
    (h0 : 0 ≤ i) (hlen : i < (cs.length : Int))
    (hinv : PlayerInv s.player)
    (h : apply_choice_consequences s i = .ok s') :
    PlayerInv s'.player := by
  unfold apply_choice_consequences at h
  rw [hce] at h
  dsimp only at h
  rw [hch] at h
  dsimp only at h
  split_ifs at h
  · cases h; exact hinv
  · split at h
    · exact Except.noConfusion h
    · split at h
      · rename_i p1 har
        cases h
        exact apply_resources_inv _ s.player p1 har hinv
      · exact Except.noConfusion h

/-- C5 witness: the invariant theorem instantiated at the initial state
and its first choice. -/
theorem C5_valid_choice_invariants_witness : PlayerInv choice_result.player :=
  C5_valid_choice_invariants initial_game_state 0 choice_result
    italian_campaign_1796 (italian_campaign_1796.choices.getD [])
    rfl rfl (by decide) (by decide)
    ⟨by decide, by decide, by decide, by decide,
      ⟨by decide, by decide,
        fun x hx => absurd hx (List.not_mem_nil x)⟩⟩
    rfl

theorem get_trait_battle_modifier (t : PyVal) (sb cp : ℚ)
    (h : get_trait t = .battle_modifier sb cp) : sb = 10/100 ∧ cp = 10/100 := by
  unfold get_trait at h
  split at h <;> first
    | exact TraitEffect.noConfusion h
    | (injection h with e1 e2; exact ⟨e1.symm, e2.symm⟩)

theorem battle_casualty_modifier_ge_one (traits : List PyVal) :
    (1 : ℚ) ≤ (traits.foldl battle_trait_step (1, 1)).2 := by
  have key : ∀ (ts : List PyVal) (acc : ℚ × ℚ),
      acc.2 ≤ (ts.foldl battle_trait_step acc).2 := by
    intro ts
    induction ts with
    | nil => exact fun acc => le_refl _
    | cons t ts ih =>
      intro acc
      rw [List.foldl_cons]
      refine le_trans ?_ (ih (battle_trait_step acc t))
      unfold battle_trait_step
      split
      <;> first
        | exact le_refl _
        | (rename_i sb cp heq
           have hcp := (get_trait_battle_modifier t sb cp heq).2
           have hcp0 : (0 : ℚ) ≤ cp := by rw [hcp]; norm_num
           show acc.2 ≤ acc.2 + cp
           linarith)
  exact key traits (1, 1)

theorem pyTrunc_eq_floor (q : ℚ) (h : 0 ≤ q) : pyTrunc q = ⌊q⌋ := by
  unfold pyTrunc
  rw [if_neg (not_lt.mpr h)]

/-- C6: `resolve_battle` reports victory exactly when the attacker's
(noised, modified) strength strictly exceeds the defender's; the
effective casualty rate is the branch draw (`U(0.05,0.15)` on victory,
`U(0.10,0.25)` on defeat) times the casualty modifier, which is ≥ 1;
and in both branches the casualties are the floor of the attacker's
troops times that rate — always charged against the attacker. -/
theorem C6_resolve_battle (atk dfn am dm tb : Int)
    (traits generals : List PyVal) (draws : BattleDraws)
    (hatk : 0 ≤ atk)
    (hv1 : 5/100 ≤ draws.victoryCasualty)
    (hv2 : draws.victoryCasualty ≤ 15/100)
    (hd1 : 10/100 ≤ draws.defeatCasualty)
    (hd2 : draws.defeatCasualty ≤ 25/100) :
    ((resolve_battle atk dfn am dm tb traits generals draws).result =
        "victory" ↔
      (resolve_battle atk dfn am dm tb traits generals draws).defender_strength <
        (resolve_battle atk dfn am dm tb traits generals draws).attacker_strength) ∧
    ((resolve_battle atk dfn am dm tb traits generals draws).result =
        "victory" ∨
      (resolve_battle atk dfn am dm tb traits generals draws).result =
        "defeat") ∧
    (1 : ℚ) ≤ (traits.foldl battle_trait_step (1, 1)).2 ∧
    (resolve_battle atk dfn am dm tb traits generals draws).casualties =
      ⌊(atk : ℚ) *
        ((if (resolve_battle atk dfn am dm tb traits generals draws).result =
            "victory"
          then draws.victoryCasualty else draws.defeatCasualty) *
          (traits.foldl battle_trait_step (1, 1)).2)⌋ ∧
    ((resolve_battle atk dfn am dm tb traits generals draws).result =
        "victory" →
      5/100 * (traits.foldl battle_trait_step (1, 1)).2 ≤
          draws.victoryCasualty * (traits.foldl battle_trait_step (1, 1)).2 ∧
        draws.victoryCasualty * (traits.foldl battle_trait_step (1, 1)).2 ≤
          15/100 * (traits.foldl battle_trait_step (1, 1)).2) ∧
    ((resolve_battle atk dfn am dm tb traits generals draws).result =
        "defeat" →
      10/100 * (traits.foldl battle_trait_step (1, 1)).2 ≤
          draws.defeatCasualty * (traits.foldl battle_trait_step (1, 1)).2 ∧
        draws.defeatCasualty * (traits.foldl battle_trait_step (1, 1)).2 ≤
          25/100 * (traits.foldl battle_trait_step (1, 1)).2) := by
  have hcm := battle_casualty_modifier_ge_one traits
  have hcm0 : (0 : ℚ) ≤ (traits.foldl battle_trait_step (1, 1)).2 := by linarith
  have hatkQ : (0 : ℚ) ≤ (atk : ℚ) := by exact_mod_cast hatk
  have hv0 : (0 : ℚ) ≤ draws.victoryCasualty := by linarith
  have hd0 : (0 : ℚ) ≤ draws.defeatCasualty := by linarith
  unfold resolve_battle
  dsimp only
  split_ifs with hw h2 h3
  · exact ⟨iff_of_true rfl hw, Or.inl rfl, hcm,
      pyTrunc_eq_floor _ (mul_nonneg hatkQ (mul_nonneg hv0 hcm0)),
      fun _ => ⟨mul_le_mul_of_nonneg_right hv1 hcm0,
        mul_le_mul_of_nonneg_right hv2 hcm0⟩,
      fun hcontra => absurd hcontra (by decide)⟩
  · exact absurd rfl h2
  · exact absurd h3 (by decide)
  · exact ⟨iff_of_false (by decide) hw, Or.inr rfl, hcm,
      pyTrunc_eq_floor _ (mul_nonneg hatkQ (mul_nonneg hd0 hcm0)),
      fun hcontra => absurd hcontra (by decide),
      fun _ => ⟨mul_le_mul_of_nonneg_right hd1 hcm0,
        mul_le_mul_of_nonneg_right hd2 hcm0⟩⟩

/-- C6 witness: the battle theorem instantiated at 1000 vs 500 troops,
full morale, no modifiers, concrete draws. -/
theorem C6_resolve_battle_witness :
    (resolve_battle 1000 500 100 100 0 [] [] sample_battle_draws).result =
        "victory" ∨
      (resolve_battle 1000 500 100 100 0 [] [] sample_battle_draws).result =
        "defeat" :=
  (C6_resolve_battle 1000 500 100 100 0 [] [] sample_battle_draws
    (by norm_num) (by norm_num [sample_battle_draws])
    (by norm_num [sample_battle_draws]) (by norm_num [sample_battle_draws])
    (by norm_num [sample_battle_draws])).2.1

/-- C4 counterexample: `generate_event` does not validate the parsed
shape and does not catch every content error.  With `json.loads`
behaving as documented: the response `[1, 2]` parses to a list, and the
metadata assignment then raises `TypeError` (propagated to the caller);
the response `\x7b"note": 1\x7d` parses to an object with no title,
description or choices, and is returned as-is (only metadata added) —
no fallback, no validation. -/
theorem C4_counterexample :
    generate_event_from_response loads_stub (some "random_1796_0")
      (some "random") (some 1796) "[1, 2]" = .error "TypeError" ∧
    generate_event_from_response loads_stub (some "random_1796_0")
      (some "random") (some 1796) "\x7b\"note\": 1\x7d" =
      .ok (.obj [("note", .num 1), ("id", .str "random_1796_0"),
        ("type", .str "random"), ("year", .num 1796)]) ∧
    (Json.obj [("note", .num 1), ("id", .str "random_1796_0"),
      ("type", .str "random"), ("year", .num 1796)]).getKey "title" =
      none ∧
    (Json.obj [("note", .num 1), ("id", .str "random_1796_0"),
      ("type", .str "random"), ("year", .num 1796)]).getKey "choices" =
      none :=
  ⟨rfl, rfl, rfl, rfl⟩

/-- C4 (amended): `generate_event` substitutes the safe fallback event
("Unexpected Development", one neutral choice) exactly on a JSON decode
failure, which is therefore never propagated; but it performs no shape
validation — any parsed object is returned with metadata added whether
or not it carries a title, a description, or 2-4 choices — and a
syntactically valid non-object response makes the metadata assignment
raise `TypeError`, which does propagate to the caller. -/
theorem C4_amended (loads : String → Except String Json)
    (tid ttype : Option String) (tyear : Option Int) (response : String) :
    (∀ e, loads (strip_code_fences response) = .error e →
      generate_event_from_response loads tid ttype tyear response =
        .ok (fallback_event e ttype) ∧
      (fallback_event e ttype).getKey "title" =
        some (.str "Unexpected Development") ∧
      (fallback_event e ttype).getKey "choices" =
        some (.arr [Json.obj [("text", .str "Proceed cautiously"),
          ("consequences", .obj [])]])) ∧
    (∀ fields, loads (strip_code_fences response) = .ok (.obj fields) →
      ∃ out, generate_event_from_response loads tid ttype tyear response =
        .ok out) ∧
    (∀ j, loads (strip_code_fences response) = .ok j → j.isDict = false →
      generate_event_from_response loads tid ttype tyear response =
        .error "TypeError") := by
  refine ⟨?_, ?_, ?_⟩
  · intro e he
    unfold generate_event_from_response
    dsimp only
    rw [he]
    exact ⟨rfl, rfl, rfl⟩
  · intro fields hf
    unfold generate_event_from_response
    dsimp only
    rw [hf]
    exact ⟨_, rfl⟩
  · intro j hj hjd
    unfold generate_event_from_response
    dsimp only
    rw [hj]
    dsimp only
    cases j with
    | obj f => exact absurd hjd (by simp [Json.isDict])
    | arr l => rfl
    | str a => rfl
    | num n => rfl
    | bool b => rfl
    | null => rfl

/-- C4 witness: the amended theorem instantiated at a response the
parser rejects — the safe fallback event comes back. -/
theorem C4_amended_witness :
    generate_event_from_response loads_stub (some "random_1796_0")
      (some "random") (some 1796) "oops" =
      .ok (fallback_event "Expecting value: line 1 column 1 (char 0)"
        (some "random")) :=
  ((C4_amended loads_stub (some "random_1796_0") (some "random") (some 1796)
    "oops").1 "Expecting value: line 1 column 1 (char 0)" rfl).1

/-- C8 counterexample: the caching guarantees fail in two ways.  With
an external tool answering the empty JSON object `\x7b\x7d`, the first
call caches it, yet the second call — identical `(model, prompt)`,
entry 0 hours old — still invokes the subprocess once, because
`if cached:` treats the falsy empty dict as a miss.  And with a tool
answering the plain non-JSON text `hello`, an entry IS written to the
cache (wrapped as a text object), although the response failed JSON
validation. -/
theorem C8_counterexample :
    (call_opencode empty_obj_env
      (call_opencode empty_obj_env [] "p" "m" [] true).2.1
      "p" "m" [] true).2.2 = 1 ∧
    (call_opencode empty_obj_env [] "p" "m" [] true).2.1 =
      [(get_cache_key "p" "m", ⟨0, .obj []⟩)] ∧
    (call_opencode plain_text_env [] "p" "m" [] true).2.1 =
      [(get_cache_key "p" "m", ⟨0, .obj [("text", .str "hello")]⟩)] :=
  ⟨rfl, rfl, rfl⟩

/-- C8 (amended): the cache key is derived from the model and prompt
alone; a second call with identical `(model, prompt)` whose cache entry
is at most 168 hours old returns the cached response with zero
subprocess invocations provided the stored response is truthy (a
non-empty object) — an empty object is treated as a miss and
re-invokes; and a brace-prefixed response that fails JSON parsing is
never written to the cache (while a non-JSON response without a leading
brace is cached wrapped as `\x7btext: response\x7d`). -/
theorem C8_amended (env : GatewayEnv) (cache : CacheState)
    (prompt model : String) (fbs : List String) (entry : CacheEntry)
    (hfind : cache.find? (fun kv => kv.1 = get_cache_key prompt model) =
      some (get_cache_key prompt model, entry))
    (hfresh : env.now - entry.timestamp ≤ 168)
    (htruthy : entry.response.truthy = true) :
    call_opencode env cache prompt model fbs true =
      (.fromCache entry.response, cache, 0) ∧
    (∀ (cache2 : CacheState) (rest : List String) (out err : String) (e2 : String),
      env.run prompt model = .finished 0 out err →
      startsWithBrace (pyStrip out) = true →
      env.loads (pyStrip out) = .error e2 →
      try_models env true prompt cache2 (model :: rest) none =
        (.fromModel (pyStrip out), cache2, 1)) := by
  constructor
  · unfold call_opencode
    rw [if_pos rfl]
    unfold cache_get
    dsimp only
    rw [hfind]
    dsimp only
    rw [if_neg (by omega : ¬ (168 < env.now - entry.timestamp))]
    dsimp only
    rw [if_pos htruthy]
  · intro cache2 rest out err e2 hrun hbrace hloads
    unfold try_models
    rw [hrun]
    dsimp only
    rw [if_neg (by simp : ¬ ((0 : Int) ≠ 0))]
    by_cases hempty : pyStrip out = ""
    · rw [hempty] at hbrace
      exact absurd hbrace (by decide)
    · rw [if_pos ⟨rfl, hempty⟩, if_pos hbrace, hloads]

/-- C8 witness: a fresh truthy cache entry answers the call with zero
invocations even though the external tool is broken. -/
theorem C8_amended_witness :
    call_opencode fresh_cache_env fresh_cache "p" "m" [] true =
      (.fromCache (.obj [("text", .str "hi")]), fresh_cache, 0) :=
  (C8_amended fresh_cache_env fresh_cache "p" "m" []
    ⟨0, .obj [("text", .str "hi")]⟩ rfl (by decide) rfl).1

/-- C1 (code bug, failing input evaluated): from the initial state on
`italian_campaign_1796`, (i) without the diversion the sequencer steps
to `austrian_counterattack_1796`; (ii) with a draw of 0.2 it splices
the deep-copied `supply_shortage` side event, and (iii) every spliced
choice does get `consequences.next_event = "austrian_counterattack_1796"`;
but (iv) resolving the side event (choice 0, then advance) sets
`current_event` to `None` — `advance_to_next_event` computes
`get_next_event_id("supply_shortage") = None` and never reads the
`next_event` consequence, so (v) the run does not rejoin the main line:
the claim's guarantee fails despite the rewiring the code performs. -/
theorem C1_side_event_rejoin_broken :
    advance_to_next_event no_diversion_env initial_game_state =
      .ok { initial_game_state with
        currentEvent := some austrian_counterattack_1796 } ∧
    advance_to_next_event diversion_env initial_game_state =
      .ok spliced_state ∧
    ((rewire_side_event supply_shortage
        "austrian_counterattack_1796").choices.getD []).all
      (fun c => c.consequences.find? (fun kv => kv.1 = "next_event") =
        some ("next_event", .vstr "austrian_counterattack_1796")) = true ∧
    ((apply_choice_consequences spliced_state 0).bind
        (advance_to_next_event diversion_env)) =
      .ok { initial_game_state with
        player := {
          troops := 50000,
          gold := 8000,
          morale := 100,
          territories := ["France"],
          allies := [],
          enemies := ["Austria", "Britain", "Russia", "Prussia"],
          traits := [],
          generals := [],
          artifacts := [] },
        currentEvent := none } ∧
    some austrian_counterattack_1796 ≠ (none : Option Event) := by
  refine ⟨?_, ?_, ?_, ?_, ?_⟩
  · rw [advance_step_no_div no_diversion_env _ italian_campaign_1796
      (italian_campaign_1796.choices.getD []) "austrian_counterattack_1796"
      rfl rfl (by decide) rfl (fun hc => absurd hc.2 half_not_lt)]
    rfl
  · rw [advance_step_div diversion_env _ italian_campaign_1796
      (italian_campaign_1796.choices.getD []) "austrian_counterattack_1796"
      supply_shortage (supply_shortage.choices.getD []) rfl rfl (by decide)
      rfl ⟨by decide, fifth_lt⟩ rfl rfl]
    rfl
  · rfl
  · rfl
  · exact fun hc => Option.noConfusion hc
